import Mathlib

/-!
A shallow embedding of `src/hyper/http20/hpack.py`, an HPACK draft-07 header
compression codec: the integer codec, the static table, and the encoder and
decoder with their dynamic header tables and reference sets. Byte strings are
lists of byte values (`List Nat`); fallible operations return `Except PyErr`,
where `PyErr` names the Python exceptions the source can raise. The external
Huffman coder (`hyper/http20/huffman.py`, out of scope per the spec) is a
function parameter `hc`/`hd`; every theorem below runs with the Huffman flag
off, where that parameter is never applied. The `to_byte` helper imported from
`hyper/compat` turns a byte into its integer value and is the identity here,
bytes already being numbers.
-/

/-- Byte strings (Python `bytes`): lists of byte values. -/
abbrev Bytes := List Nat

/-- A header pair `(name, value)`, both byte strings. -/
abbrev Header := Bytes × Bytes

/-- The Python exceptions the source can raise: `IndexError` from indexing past
the end of `bytes`, a `deque`, or a list; `KeyError` from `del` on a missing
dict key; `TypeError` from unpacking or subscripting `None`; `AttributeError`
from `.obj` on `None`; `HPACKEncodingError` raised by `Encoder.remove`. The
`fuel` constructor marks exhaustion of the loop bound in the embedding of
`Decoder.decode`'s while loop (unreachable, since every iteration consumes at
least one byte). -/
inductive PyErr
  | indexError
  | keyError
  | typeError
  | attributeError
  | hpackEncodingError
  | fuel
deriving DecidableEq

/-- Bytes of an ASCII string, as the source's `b'...'` literals denote. -/
def byteStr (s : String) : Bytes := s.data.map Char.toNat

/-- Continuation loop of `encode_integer` (the `while integer >= 128` loop,
source lines 42-46), with explicit fuel; `encIntLoop` supplies fuel `i`, which
bounds the iteration count because the argument shrinks by a factor of 128
each round, so the `fuel = 0` clause is only ever reached with `i < 128`. -/
def encIntLoopGo : Nat → Nat → List Nat
  | 0, i => [i]
  | fuel + 1, i =>
    if 128 ≤ i then (i % 128 + 128) :: encIntLoopGo fuel (i / 128) else [i]

/-- The bytes the loop of `encode_integer` appends after the first byte. -/
def encIntLoop (i : Nat) : List Nat := encIntLoopGo i i

/-- `encode_integer(integer, prefix_bits)` of the source (lines 27-48). -/
def encode_integer (integer pfxBits : Nat) : List Nat :=
  let max_number := 2 ^ pfxBits - 1
  if integer < max_number then [integer]
  else max_number :: encIntLoop (integer - max_number)

/-- Continuation-byte loop of `decode_integer` (source lines 67-75): `idx` is
the position of the byte being read, starting at 1; `none` models the
`IndexError` Python raises when the input ends mid-integer. -/
def decodeIntLoop : List Nat → Nat → Nat → Option (Nat × Nat)
  | [], _, _ => none
  | b :: rest, number, idx =>
    if 128 ≤ b then decodeIntLoop rest (number + (b - 128) * 128 ^ (idx - 1)) (idx + 1)
    else some (number + b * 128 ^ (idx - 1), idx + 1)

/-- `decode_integer(data, prefix_bits)` of the source (lines 51-79): the
decoded integer and the number of bytes consumed, or `none` for the
`IndexError` on truncated input. -/
def decode_integer (data : List Nat) (pfxBits : Nat) : Option (Nat × Nat) :=
  match data with
  | [] => none
  | b :: rest =>
    let max_number := 2 ^ pfxBits - 1
    let mask := 0xFF >>> (8 - pfxBits)
    let number := b &&& mask
    if number = max_number then decodeIntLoop rest number 1
    else some (number, 1)

/-- The continuation-byte emitter exactly as claim C7's sentence words it,
with fuel like `encIntLoopGo`: repeatedly emit `(I mod 128) | 0x80` and set
`I ← I / 128` while `I ≥ 128`; finally emit `I` with the top bit clear. -/
def claimContGo : Nat → Nat → List Nat
  | 0, i => [i]
  | fuel + 1, i =>
    if 128 ≤ i then (i % 128 ||| 0x80) :: claimContGo fuel (i / 128) else [i]

/-- The claim's continuation bytes for a value `i`. -/
def claimContinuation (i : Nat) : List Nat := claimContGo i i

/-- `header_table_size(table)` of the source (lines 92-103): the octet size
charged to a table, `32 + len(name) + len(value)` per entry. -/
def header_table_size (table : List Header) : Nat :=
  (table.map fun h => 32 + h.1.length + h.2.length).sum

/-- The 60-entry static table. The source carries two identical literal
copies, `Encoder.static_table` (lines 112-174) and `Decoder.static_table`
(lines 523-585). -/
def static_table : List Header := [
  (byteStr ":authority", byteStr ""),
  (byteStr ":method", byteStr "GET"),
  (byteStr ":method", byteStr "POST"),
  (byteStr ":path", byteStr "/"),
  (byteStr ":path", byteStr "/index.html"),
  (byteStr ":scheme", byteStr "http"),
  (byteStr ":scheme", byteStr "https"),
  (byteStr ":status", byteStr "200"),
  (byteStr ":status", byteStr "204"),
  (byteStr ":status", byteStr "206"),
  (byteStr ":status", byteStr "304"),
  (byteStr ":status", byteStr "400"),
  (byteStr ":status", byteStr "404"),
  (byteStr ":status", byteStr "500"),
  (byteStr "accept-charset", byteStr ""),
  (byteStr "accept-encoding", byteStr "gzip, deflate"),
  (byteStr "accept-language", byteStr ""),
  (byteStr "accept-ranges", byteStr ""),
  (byteStr "accept", byteStr ""),
  (byteStr "access-control-allow-origin", byteStr ""),
  (byteStr "age", byteStr ""),
  (byteStr "allow", byteStr ""),
  (byteStr "authorization", byteStr ""),
  (byteStr "cache-control", byteStr ""),
  (byteStr "content-disposition", byteStr ""),
  (byteStr "content-encoding", byteStr ""),
  (byteStr "content-language", byteStr ""),
  (byteStr "content-length", byteStr ""),
  (byteStr "content-location", byteStr ""),
  (byteStr "content-range", byteStr ""),
  (byteStr "content-type", byteStr ""),
  (byteStr "cookie", byteStr ""),
  (byteStr "date", byteStr ""),
  (byteStr "etag", byteStr ""),
  (byteStr "expect", byteStr ""),
  (byteStr "expires", byteStr ""),
  (byteStr "from", byteStr ""),
  (byteStr "host", byteStr ""),
  (byteStr "if-match", byteStr ""),
  (byteStr "if-modified-since", byteStr ""),
  (byteStr "if-none-match", byteStr ""),
  (byteStr "if-range", byteStr ""),
  (byteStr "if-unmodified-since", byteStr ""),
  (byteStr "last-modified", byteStr ""),
  (byteStr "link", byteStr ""),
  (byteStr "location", byteStr ""),
  (byteStr "max-forwards", byteStr ""),
  (byteStr "proxy-authenticate", byteStr ""),
  (byteStr "proxy-authorization", byteStr ""),
  (byteStr "range", byteStr ""),
  (byteStr "referer", byteStr ""),
  (byteStr "refresh", byteStr ""),
  (byteStr "retry-after", byteStr ""),
  (byteStr "server", byteStr ""),
  (byteStr "set-cookie", byteStr ""),
  (byteStr "strict-transport-security", byteStr ""),
  (byteStr "transfer-encoding", byteStr ""),
  (byteStr "user-agent", byteStr ""),
  (byteStr "vary", byteStr ""),
  (byteStr "via", byteStr ""),
  (byteStr "www-authenticate", byteStr "")]

/-- A Python value passed to `Encoder.encode` as a header name or value: a
`str` (with its text), a `bytes` (with its bytes), or any other object,
carried here by the text its `str()` returns. -/
inductive PyVal
  | str (s : String)
  | bytes (b : Bytes)
  | other (strRepr : String)
deriving DecidableEq

/-- UTF-8 encoding of a string, as Python's `str.encode('utf-8')`. -/
def utf8Bytes (s : String) : Bytes := s.toUTF8.toList.map UInt8.toNat

/-- `_to_bytes(string)` of the source (lines 82-89): anything that is neither
`str` nor `bytes` is first converted with `str()`, and any `str` is UTF-8
encoded; `bytes` pass through unchanged. -/
def _to_bytes : PyVal → Bytes
  | .str s => utf8Bytes s
  | .bytes b => b
  | .other strRepr => utf8Bytes strRepr

/-- Modelled from the spec: the `emitted` tag a `Reference` object carries
(`hyper/http20/hpack_structures.py` is not among the source files). Spec §3:
"each reference additionally carries an ephemeral per-block `emitted` tag ∈
{NOT_EMITTED, IMPLICITLY_EMITTED, EMITTED}, cleared at the start of every
`encode()` call"; `NOT_EMITTED` is the falsy value, as the source's
`if not ref.emitted` selects it. -/
inductive Emitted
  | notEmitted
  | implicitlyEmitted
  | emitted
deriving DecidableEq

/-- Modelled from the spec: a `Reference` held by the encoder's reference set
— identified by the header pair's byte content (spec §3: "two references with
identical `(name, value)` are equal") and carrying the per-block tag. -/
structure EncRef where
  obj : Header
  emitted : Emitted
deriving DecidableEq

/-- Encoder state (`Encoder.__init__`, lines 176-186): the dynamic header
table (a `deque`, newest entry first), the maximum size
`_header_table_size`, and the reference set — a dict keyed by `Reference`
(content of `obj`), modelled as a list in insertion order with unique
`obj`s; in the source the dict's key and value are the same `Reference`
object. -/
structure EncState where
  header_table : List Header
  header_table_size : Nat
  reference_set : List EncRef
deriving DecidableEq

/-- A fresh encoder: empty table, maximum size 4096, empty reference set. -/
def freshEncoder : EncState := ⟨[], 4096, []⟩

/-- Dict lookup `self.reference_set[Reference(header)]` by `obj` content. -/
def refLookup (rs : List EncRef) (h : Header) : Option EncRef :=
  rs.find? fun r => decide (r.obj = h)

/-- `del self.reference_set[Reference(header)]` wrapped in
`try/except KeyError: pass`: drop the entry with this `obj` if present. -/
def refDiscard (rs : List EncRef) (h : Header) : List EncRef :=
  rs.filter fun r => !decide (r.obj = h)

/-- `self.reference_set[ref] = ref`: replace the entry with the same `obj` in
place, or append a new one. -/
def refInsert : List EncRef → EncRef → List EncRef
  | [], r => [r]
  | x :: xs, r => if x.obj = r.obj then r :: xs else x :: refInsert xs r

/-- The mutation `ref.emitted = e` of the reference whose `obj` is `h`. -/
def refSetEmitted (rs : List EncRef) (h : Header) (e : Emitted) : List EncRef :=
  rs.map fun r => if r.obj = h then { r with emitted := e } else r

/-- `Encoder.get_from_reference_set(header)` (lines 430-444): `none` when the
header is `None` or not in the set. -/
def get_from_reference_set (rs : List EncRef) (header : Option Header) :
    Option EncRef :=
  match header with
  | none => none
  | some h => refLookup rs h

/-- Eviction loop shared by `Encoder._add_to_header_table` (lines 457-469) and
the `Encoder.header_table_size` setter (lines 202-217), acting on the
reversed table (oldest entry first, so Python's `pop()` from the right is the
head here): while the table's size exceeds `maxs`, drop the oldest entry and
remove it from the reference set. -/
def encEvictRev : List Header → List EncRef → Nat → List Header × List EncRef
  | [], rs, _ => ([], rs)
  | h :: rest, rs, maxs =>
    if maxs < header_table_size (h :: rest) then
      encEvictRev rest (refDiscard rs h) maxs
    else (h :: rest, rs)

/-- `Encoder._add_to_header_table(header)` (lines 446-471): prepend, then
evict from the back while the size exceeds the maximum. -/
def encAddToHeaderTable (st : EncState) (header : Header) : EncState :=
  let ht := header :: st.header_table
  let (revHt, rs) := encEvictRev ht.reverse st.reference_set st.header_table_size
  { st with header_table := revHt.reverse, reference_set := rs }

/-- The `Encoder.header_table_size` setter (lines 192-223): shrinking evicts
from the back, removing evicted entries from the reference set, until the
size fits the new value; growing just stores the value. -/
def encSetHeaderTableSize (st : EncState) (value : Nat) : EncState :=
  if value < st.header_table_size then
    let (revHt, rs) := encEvictRev st.header_table.reverse st.reference_set value
    { header_table := revHt.reverse, header_table_size := value,
      reference_set := rs }
  else { st with header_table_size := value }

/-- One scan loop of `Encoder.matching_header` (lines 414-426) over a table
whose first entry has one-based index `base + 1`: the first exact match with
its entry, stopping there, and separately the first name-only match
(threaded through `part`, first occurrence winning). -/
def scanHeaders : List Header → Bytes → Bytes → Nat → Option Nat →
    Option (Nat × Header) × Option Nat
  | [], _, _, _, part => (none, part)
  | (n, v) :: rest, name, value, base, part =>
    if n = name then
      if v = value then (some (base + 1, (n, v)), part)
      else scanHeaders rest name value (base + 1) (part.orElse fun _ => some (base + 1))
    else scanHeaders rest name value (base + 1) part

/-- `Encoder.matching_header(name, value)` (lines 403-428): dynamic table
first, then the static table with indices offset by the dynamic length; an
exact match anywhere beats a name-only match; the name-only index is the
first name match in the combined scan order. -/
def matching_header (ht : List Header) (name value : Bytes) :
    Option (Nat × Option Header) :=
  match scanHeaders ht name value 0 none with
  | (some (i, h), _) => some (i, some h)
  | (none, part1) =>
    match scanHeaders static_table name value ht.length part1 with
    | (some (i, h), _) => some (i, some h)
    | (none, some i) => some (i, none)
    | (none, none) => none

/-- Set the 0x80 bit on the first byte, as `field[0] |= 0x80` does. -/
def setTopBit : Bytes → Bytes
  | [] => []
  | b :: rest => (b ||| 0x80) :: rest

/-- `Encoder._encode_indexed(index)` (lines 473-479): integer with a 7-bit
prefix, top bit of the first byte set. -/
def _encode_indexed (index : Nat) : Bytes :=
  setTopBit (encode_integer index 7)

/-- `Encoder._encode_literal(name, value, indexing, huffman)` (lines
481-500); `hc` stands for the external `HuffmanEncoder.encode`. -/
def _encode_literal (hc : Bytes → Bytes) (name value : Bytes)
    (indexing huffman : Bool) : Bytes :=
  let pfx : Bytes := if indexing then [0x40] else [0x00]
  let name := if huffman then hc name else name
  let value := if huffman then hc value else value
  let name_len := encode_integer name.length 7
  let value_len := encode_integer value.length 7
  let name_len := if huffman then setTopBit name_len else name_len
  let value_len := if huffman then setTopBit value_len else value_len
  pfx ++ name_len ++ name ++ value_len ++ value

/-- `Encoder._encode_indexed_literal(index, value, huffman)` (lines 502-516):
the name index as an integer with a 4-bit prefix (no pattern bits set),
then the length-prefixed literal value. -/
def _encode_indexed_literal (hc : Bytes → Bytes) (index : Nat) (value : Bytes)
    (huffman : Bool) : Bytes :=
  let name := encode_integer index 4
  let value := if huffman then hc value else value
  let value_len := encode_integer value.length 7
  let value_len := if huffman then setTopBit value_len else value_len
  name ++ value_len ++ value

/-- `Encoder.add(to_add, huffman)` (lines 357-401): the serialized bytes and
the updated state. An exact match is emitted as an indexed representation
(also added to the dynamic table when the index points into the static
region); a name-only match as an indexed literal without indexing; no match
as a literal with indexing, added to the table. -/
def Encoder.add (hc : Bytes → Bytes) (st : EncState) (to_add : Header)
    (huffman : Bool) : Bytes × EncState :=
  let (name, value) := to_add
  match matching_header st.header_table name value with
  | none =>
    let encoded := _encode_literal hc name value true huffman
    let st := encAddToHeaderTable st to_add
    (encoded, { st with reference_set := refInsert st.reference_set ⟨to_add, .emitted⟩ })
  | some (index, some _) =>
    let encoded := _encode_indexed index
    let st := if st.header_table.length < index then
        encAddToHeaderTable st (name, value)
      else st
    (encoded, { st with reference_set := refInsert st.reference_set ⟨(name, value), .emitted⟩ })
  | some (index, none) =>
    (_encode_indexed_literal hc index value huffman, st)

/-- `Encoder.remove(header)` (lines 319-355): the header must match exactly
at an index inside the dynamic table, else `HPACKEncodingError`; encode the
indexed representation and delete the reference (a missing dict key is
Python's `KeyError`). -/
def Encoder.remove (st : EncState) (header : Header) :
    Except PyErr (Bytes × EncState) :=
  match matching_header st.header_table header.1 header.2 with
  | none => .error .hpackEncodingError
  | some (index, mtch) =>
    if mtch = none ∨ st.header_table.length < index then .error .hpackEncodingError
    else if (refLookup st.reference_set header).isSome then
      .ok (_encode_indexed index,
           { st with reference_set := refDiscard st.reference_set header })
    else .error .keyError

/-- One header of the `for header in headers` loop of `Encoder.encode`
(lines 271-306): the accumulated fragments and the new state. A reference
not yet emitted this block is marked implicitly emitted; one already
emitted goes through the removal/re-addition dance (the first re-addition on
line 297 calls `add` without the huffman argument, so huffman off); a header
with no reference is emitted through `add`. -/
def encHeaderStep (hc : Bytes → Bytes) (huffman : Bool)
    (acc : List Bytes × EncState) (header : Header) :
    Except PyErr (List Bytes × EncState) :=
  let (frags, st) := acc
  let mtch : Option Header :=
    match matching_header st.header_table header.1 header.2 with
    | some (_, mm) => mm
    | none => none
  match get_from_reference_set st.reference_set mtch with
  | some r =>
    if r.emitted = .notEmitted then
      .ok (frags, { st with
        reference_set := refSetEmitted st.reference_set r.obj .implicitlyEmitted })
    else if r.emitted = .implicitlyEmitted then do
      let (b1, st) ← Encoder.remove st r.obj
      let (b2, st) := Encoder.add hc st header false
      let header2 : Option Header ←
        match matching_header st.header_table header.1 header.2 with
        | none => Except.error PyErr.typeError
        | some (_, mm) => pure mm
      let r2 ←
        match get_from_reference_set st.reference_set header2 with
        | none => Except.error PyErr.attributeError
        | some x => pure x
      let (b3, st) ← Encoder.remove st r2.obj
      let (b4, st) ←
        match header2 with
        | none => Except.error PyErr.typeError
        | some h2 => pure (Encoder.add hc st h2 huffman)
      .ok (frags ++ [b1, b2, b3, b4], st)
    else do
      let (b1, st) ← Encoder.remove st r.obj
      let (b2, st) := Encoder.add hc st header huffman
      .ok (frags ++ [b1, b2], st)
  | none =>
    let (b, st) := Encoder.add hc st header huffman
    .ok (frags ++ [b], st)

/-- Lexicographic order on byte strings, as Python compares `bytes`. -/
def bytesLt : Bytes → Bytes → Bool
  | [], [] => false
  | [], _ :: _ => true
  | _ :: _, [] => false
  | x :: xs, y :: ys => if x < y then true else if y < x then false else bytesLt xs ys

/-- Python tuple order on header pairs, as `sorted(..., key=lambda r: r.obj)`
compares them: by name, then by value. -/
def headerLt (a b : Header) : Bool :=
  if bytesLt a.1 b.1 then true
  else if bytesLt b.1 a.1 then false
  else bytesLt a.2 b.2

/-- Insert a reference into a list sorted by `headerLt` on `obj`. -/
def sortInsert (r : EncRef) : List EncRef → List EncRef
  | [] => [r]
  | x :: xs => if headerLt r.obj x.obj then r :: x :: xs else x :: sortInsert r xs

/-- `sorted(self.reference_set.keys(), key=lambda r: r.obj)` (line 311). -/
def sortRefs (rs : List EncRef) : List EncRef :=
  rs.foldr sortInsert []

/-- The cleanup loop of `Encoder.encode` (lines 308-313): remove, in sorted
order, every reference whose tag is still `NOT_EMITTED`. -/
def encCleanup (acc : List Bytes × EncState) :
    List EncRef → Except PyErr (List Bytes × EncState)
  | [] => .ok acc
  | r :: rest =>
    if r.emitted = .notEmitted then do
      let (b, st) ← Encoder.remove acc.2 r.obj
      encCleanup (acc.1 ++ [b], st) rest
    else encCleanup acc rest

/-- The body of `Encoder.encode` after input normalization (lines 248-317):
reset every reference's `emitted` tag, process each header in order, then
remove the unemitted references in sorted order and join the fragments. -/
def encodeBody (hc : Bytes → Bytes) (st : EncState) (hs : List Header)
    (huffman : Bool) : Except PyErr (Bytes × EncState) := do
  let st := { st with
    reference_set := st.reference_set.map fun r => { r with emitted := .notEmitted } }
  let (frags, st) ← hs.foldlM (encHeaderStep hc huffman) ([], st)
  let (frags, st) ← encCleanup (frags, st) (sortRefs st.reference_set)
  .ok (frags.flatten, st)

/-- `Encoder.encode(headers, huffman)` (lines 225-317): every name and value
is first normalized to a byte string with `_to_bytes` (line 260), then the
block is produced by `encodeBody`. A `dict` argument is modelled as already
itemized into a list of pairs (line 257). -/
def Encoder.encode (hc : Bytes → Bytes) (st : EncState)
    (headers : List (PyVal × PyVal)) (huffman : Bool) :
    Except PyErr (Bytes × EncState) :=
  encodeBody hc st (headers.map fun p => (_to_bytes p.1, _to_bytes p.2)) huffman

/-- Decoder state (`Decoder.__init__`, lines 587-593): the dynamic table
(newest first), the reference set — a Python `set` of `Reference`s keyed by
content, modelled as a duplicate-free list in insertion order — and the
maximum table size. -/
structure DecState where
  header_table : List Header
  reference_set : List Header
  header_table_size : Nat
deriving DecidableEq

/-- A fresh decoder: empty table, empty reference set, maximum size 4096. -/
def freshDecoder : DecState := ⟨[], [], 4096⟩

/-- Set insertion `self.reference_set.add(Reference(header))`. -/
def setAdd (rs : List Header) (h : Header) : List Header :=
  if h ∈ rs then rs else rs ++ [h]

/-- `set.remove` / `set.discard` of a reference. -/
def setRemove (rs : List Header) (h : Header) : List Header :=
  rs.filter fun x => !decide (x = h)

/-- Eviction loop shared by `Decoder._add_to_header_table` (lines 693-704)
and the decoder's `header_table_size` setter (lines 609-623), on the
reversed table, discarding evicted entries from the reference set. -/
def decEvictRev : List Header → List Header → Nat → List Header × List Header
  | [], rs, _ => ([], rs)
  | h :: rest, rs, maxs =>
    if maxs < header_table_size (h :: rest) then
      decEvictRev rest (setRemove rs h) maxs
    else (h :: rest, rs)

/-- `Decoder._add_to_header_table(new_header)` (lines 682-704). -/
def decAddToHeaderTable (st : DecState) (header : Header) : DecState :=
  let ht := header :: st.header_table
  let (revHt, rs) := decEvictRev ht.reverse st.reference_set st.header_table_size
  { st with header_table := revHt.reverse, reference_set := rs }

/-- The decoder's `header_table_size` setter (lines 599-625). -/
def decSetHeaderTableSize (st : DecState) (value : Nat) : DecState :=
  if value < st.header_table_size then
    let (revHt, rs) := decEvictRev st.header_table.reverse st.reference_set value
    { header_table := revHt.reverse, reference_set := rs,
      header_table_size := value }
  else { st with header_table_size := value }

/-- Python sequence indexing `xs[i]` on a list or `deque`: a negative index
counts from the end; out of range raises `IndexError`. -/
def pythonGet {α : Type} (l : List α) (i : Int) : Except PyErr α :=
  let j := if i < 0 then (l.length : Int) + i else i
  if 0 ≤ j then
    match l.get? j.toNat with
    | some x => .ok x
    | none => .error .indexError
  else .error .indexError

/-- An `Option` result of `decode_integer`, turned into the `IndexError`
Python raises on truncated input. -/
def orIndexError {α : Type} : Option α → Except PyErr α
  | some x => .ok x
  | none => .error .indexError

/-- `Decoder._decode_indexed(data)` (lines 720-752). The source compares the
decremented index to the table length with `>` (not `>=`): wire index `D+1`
therefore falls into the dynamic branch and indexes one past the deque's
end, and wire index `0` becomes Python index `-1`, which a non-empty deque
resolves to its oldest entry. A static-table hit is also added to the
dynamic table; then the reference set is toggled: a referenced header is
removed and nothing emitted, an unreferenced one is added and emitted. -/
def _decode_indexed (st : DecState) (data : Bytes) :
    Except PyErr (Option Header × Nat × DecState) := do
  let (index0, consumed) ← orIndexError (decode_integer data 7)
  let index : Int := (index0 : Int) - 1
  let (header, st) ←
    if (st.header_table.length : Int) < index then do
      let header ← pythonGet static_table (index - st.header_table.length)
      pure (header, decAddToHeaderTable st header)
    else do
      let header ← pythonGet st.header_table index
      pure (header, st)
  if header ∈ st.reference_set then
    .ok (none, consumed, { st with reference_set := setRemove st.reference_set header })
  else
    .ok (some header, consumed, { st with reference_set := setAdd st.reference_set header })

/-- `Decoder._decode_literal(data, should_index)` (lines 760-828); `hd`
stands for the external `HuffmanDecoder.decode`. The name-index comparison
here is `>=`, unlike `_decode_indexed`'s `>`. With a literal name the input
is advanced one byte first, and the Huffman bit is read from the first byte
of the length field; slices past the end are short, as in Python. -/
def _decode_literal (hd : Bytes → Bytes) (st : DecState) (data : Bytes)
    (should_index : Bool) : Except PyErr (Header × Nat × DecState) := do
  let b0 ←
    match data with
    | [] => Except.error PyErr.indexError
    | b :: _ => pure b
  let indexed_name := if should_index then b0 &&& 0x3F else b0
  let name_len := if should_index then 6 else 4
  let (name, data2, total0) ←
    if indexed_name ≠ 0 then do
      let (index0, consumed) ← orIndexError (decode_integer data name_len)
      let index : Int := (index0 : Int) - 1
      let header ←
        if (st.header_table.length : Int) ≤ index then
          pythonGet static_table (index - st.header_table.length)
        else
          pythonGet st.header_table index
      pure (header.1, data.drop (consumed + 0), consumed)
    else do
      let data1 := data.drop 1
      let (length, consumed) ← orIndexError (decode_integer data1 7)
      let name0 := (data1.drop consumed).take length
      let b1 ←
        match data1 with
        | [] => Except.error PyErr.indexError
        | b :: _ => pure b
      let name := if b1 &&& 0x80 ≠ 0 then hd name0 else name0
      pure (name, data1.drop (consumed + length), consumed + length + 1)
  let (length, consumed) ← orIndexError (decode_integer data2 7)
  let value0 := (data2.drop consumed).take length
  let b2 ←
    match data2 with
    | [] => Except.error PyErr.indexError
    | b :: _ => pure b
  let value := if b2 &&& 0x80 ≠ 0 then hd value0 else value0
  let header := (name, value)
  let total := total0 + length + consumed
  if should_index then
    let st := decAddToHeaderTable st header
    .ok (header, total, { st with reference_set := setAdd st.reference_set header })
  else
    .ok (header, total, st)

/-- `Decoder._update_encoding_context(data)` (lines 706-718): byte `0x30`
empties the reference set and consumes one byte; anything else is a
table-size update with a 4-bit prefix. `Decoder.decode` passes the whole
block here, not the remaining slice (line 660). -/
def _update_encoding_context (st : DecState) (data : Bytes) :
    Except PyErr (Nat × DecState) := do
  let b0 ←
    match data with
    | [] => Except.error PyErr.indexError
    | b :: _ => pure b
  if b0 = 0x30 then
    .ok (1, { st with reference_set := [] })
  else
    let (new_size, consumed) ← orIndexError (decode_integer data 4)
    .ok (consumed, decSetHeaderTableSize st new_size)

/-- The dispatch loop of `Decoder.decode` (lines 637-671), with fuel — every
iteration consumes at least one byte, so fuel `data.length` never runs out.
The first byte's bits select the representation; the `encoding_update`
branch passes the whole block `data`, exactly as line 660 of the source
does. -/
def decodeLoop (hd : Bytes → Bytes) (data : Bytes) :
    Nat → Nat → List Header → DecState → Except PyErr (List Header × DecState)
  | fuel, current_index, headers, st =>
    match data.drop current_index with
    | [] => .ok (headers, st)
    | current :: _ =>
      match fuel with
      | 0 => .error .fuel
      | fuel + 1 => do
        if current &&& 0x80 ≠ 0 then
          let (h, consumed, st) ← _decode_indexed st (data.drop current_index)
          decodeLoop hd data fuel (current_index + consumed)
            (match h with | some hh => headers ++ [hh] | none => headers) st
        else if current &&& 0x40 ≠ 0 then
          let (h, consumed, st) ← _decode_literal hd st (data.drop current_index) true
          decodeLoop hd data fuel (current_index + consumed) (headers ++ [h]) st
        else if current &&& 0x20 ≠ 0 then
          let (consumed, st) ← _update_encoding_context st data
          decodeLoop hd data fuel (current_index + consumed) headers st
        else
          let (h, consumed, st) ← _decode_literal hd st (data.drop current_index) false
          decodeLoop hd data fuel (current_index + consumed) (headers ++ [h]) st

/-- The final reference-set emission of `Decoder.decode` (lines 673-678):
append every referenced header not already among the emitted ones. The
source iterates a Python `set`; this model iterates in insertion order. -/
def emitRefs (headers : List Header) (rs : List Header) : List Header :=
  rs.foldl (fun hs h => if h ∈ hs then hs else hs ++ [h]) headers

/-- `Decoder.decode(data)` (lines 627-680) up to its final text conversion:
the emitted header pairs as byte strings, and the new state. The source's
last line additionally maps both components of every pair through
`bytes.decode('utf-8')`; the theorems below are stated at the byte level,
before that boundary conversion. -/
def Decoder.decode (hd : Bytes → Bytes) (st : DecState) (data : Bytes) :
    Except PyErr (List Header × DecState) := do
  let (headers, st) ← decodeLoop hd data data.length 0 [] st
  .ok (emitRefs headers st.reference_set, st)

/-- The spec's reference-set containment invariant (§3, invariant 1) for the
encoder: every referenced header pair is present in the dynamic table or in
the static table. -/
def encRefSetInvariant (st : EncState) : Prop :=
  ∀ r ∈ st.reference_set, r.obj ∈ st.header_table ∨ r.obj ∈ static_table

/-! ## Shared concrete inputs -/

/-- The four request headers of the spec's first end-to-end scenario, given
as byte strings (§8, scenario 1). -/
def requestHeaders : List (PyVal × PyVal) :=
  [(.bytes (byteStr ":method"), .bytes (byteStr "GET")),
   (.bytes (byteStr ":scheme"), .bytes (byteStr "http")),
   (.bytes (byteStr ":path"), .bytes (byteStr "/")),
   (.bytes (byteStr ":authority"), .bytes (byteStr "www.example.com"))]

/-- The dynamic table after encoding `requestHeaders` on a fresh encoder:
newest first, holding path, scheme and method. -/
def requestTable : List Header :=
  [(byteStr ":path", byteStr "/"),
   (byteStr ":scheme", byteStr "http"),
   (byteStr ":method", byteStr "GET")]

/-- The encoder state after the first encode of `requestHeaders`. -/
def firstRequestState : EncState :=
  ⟨requestTable, 4096,
   [⟨(byteStr ":method", byteStr "GET"), .emitted⟩,
    ⟨(byteStr ":scheme", byteStr "http"), .emitted⟩,
    ⟨(byteStr ":path", byteStr "/"), .emitted⟩]⟩

/-- The byte block the first encode of `requestHeaders` produces. -/
def firstRequestBlock : Bytes :=
  [0x82, 0x87, 0x86, 0x04, 0x0f] ++ byteStr "www.example.com"

/-- Encoding `requestHeaders` twice in a row into the same fresh encoder. -/
def secondEncode : Except PyErr (Bytes × EncState) := do
  let (_, st) ← Encoder.encode id freshEncoder requestHeaders false
  Encoder.encode id st requestHeaders false

/-- The encoder state after the second encode of `requestHeaders`: same
table, every reference implicitly emitted. -/
def secondRequestState : EncState :=
  ⟨requestTable, 4096,
   [⟨(byteStr ":method", byteStr "GET"), .implicitlyEmitted⟩,
    ⟨(byteStr ":scheme", byteStr "http"), .implicitlyEmitted⟩,
    ⟨(byteStr ":path", byteStr "/"), .implicitlyEmitted⟩]⟩

/-! ## Claim theorems -/

/-- C1: the round-trip law fails on the code. Encoding the single-header
list [(":authority", "")] on a fresh encoder with huffman off emits the
indexed representation 0x81 of the exact static match (wire index D+1 = 1),
and a fresh decoder fed that block raises IndexError instead of returning
the header: `_decode_indexed` compares the decremented index with `>` so
wire index D+1 lands in the dynamic branch and indexes one past the end of
the empty deque. -/
theorem roundtrip_authority_fails :
    Encoder.encode id freshEncoder [(.bytes (byteStr ":authority"), .bytes [])] false =
      .ok ([0x81], ⟨[(byteStr ":authority", [])], 4096,
                    [⟨(byteStr ":authority", []), .emitted⟩]⟩) ∧
    Decoder.decode id freshDecoder [0x81] = .error .indexError :=
  ⟨rfl, rfl⟩

/-- C2: the reference-set containment invariant fails on the code. After
shrinking a fresh encoder's table to 0 and encoding the single header
("a", "b"), `Encoder.add` inserts the reference even though the entry was
immediately evicted from the capacity-0 dynamic table, and ("a", "b") is
not in the static table, so the invariant is false after the encode. -/
theorem encoder_refset_invariant_violated :
    Encoder.encode id (encSetHeaderTableSize freshEncoder 0)
        [(.bytes [97], .bytes [98])] false =
      .ok ([0x40, 1, 97, 1, 98], ⟨[], 0, [⟨([97], [98]), .emitted⟩]⟩) ∧
    ¬ encRefSetInvariant ⟨[], 0, [⟨([97], [98]), .emitted⟩]⟩ :=
  ⟨rfl, by unfold encRefSetInvariant; decide⟩

/-- C3 as stated is false: the first encode of the scenario's four headers
produces the block 0x82 0x87 0x86 0x04 0x0f "www.example.com", whose first
three bytes are not 0x82 0x86 0x84 — under draft-07 the static indices
shift as the dynamic table grows, and the authority header goes out as a
literal without indexing (name-only match), not with incremental
indexing. -/
theorem first_request_counterexample :
    Encoder.encode id freshEncoder requestHeaders false =
      .ok (firstRequestBlock, firstRequestState) ∧
    firstRequestBlock.take 3 ≠ [0x82, 0x86, 0x84] :=
  ⟨rfl, by decide⟩

/-- C3 amended: the first three representations are the indexed bytes
0x82, 0x87, 0x86 (static indices offset by the growing dynamic table), and
the authority header follows as a literal-without-indexing representation
whose 4-bit name index 4 addresses the ":authority" static name: bytes
0x04, 0x0f, then the 15 value bytes. -/
theorem first_request_block :
    Encoder.encode id freshEncoder requestHeaders false =
      .ok ([0x82, 0x87, 0x86, 0x04, 0x0f] ++ byteStr "www.example.com",
           firstRequestState) :=
  rfl

/-- C4 as stated is false: the second encode of the same list into the same
encoder does not return the empty byte string — the authority header never
entered the reference set (its name-only match emits without adding a
reference), so it is re-emitted as the same literal every time. -/
theorem second_encode_counterexample :
    secondEncode = .ok ([0x04, 0x0f] ++ byteStr "www.example.com",
                        secondRequestState) ∧
    ([0x04, 0x0f] ++ byteStr "www.example.com" : Bytes) ≠ [] :=
  ⟨rfl, by decide⟩

/-- C4 amended: on the second encode the three statically-indexed headers
are in the reference set and are carried by implicit emission (no bytes),
while the authority header, absent from the reference set, is re-emitted as
the literal-without-indexing representation 0x04 0x0f "www.example.com",
which is the entire output block. -/
theorem second_encode_block :
    secondEncode = .ok ([0x04, 0x0f] ++ byteStr "www.example.com",
                        secondRequestState) :=
  rfl

/-- C5: a malformed block does not fail with a DecodingError. The block
0x82 0x80 carries an indexed representation with wire index 0; the decoder
succeeds: index 0 becomes Python index -1, which the one-entry deque
resolves to its oldest entry (":method", "GET"), toggling it out of the
reference set. No DecodingError class even exists in the module: truncated
or out-of-range input surfaces as a bare IndexError. -/
theorem decode_zero_index_succeeds :
    Decoder.decode id freshDecoder [0x82, 0x80] =
      .ok ([(byteStr ":method", byteStr "GET")],
           ⟨[(byteStr ":method", byteStr "GET")], [], 4096⟩) :=
  rfl

/-- C6 fails at w = D + 1: after 0x82 the dynamic table has length D = 1,
and a second 0x82 (wire index 2 = D + 1, which the claim resolves to the
first static entry (":authority", "")) is compared with `>` by
`_decode_indexed`, falls into the dynamic branch, indexes position 1 of
the one-entry deque and raises IndexError. -/
theorem decode_first_static_entry_crashes :
    Decoder.decode id freshDecoder [0x82, 0x82] = .error .indexError :=
  rfl

/-- C7 as stated is false: the source subtracts M = 2^N - 1 from I before
the continuation loop, so at I = 127, N = 7 (where I = M) it emits
[0x7f, 0x00], not the [0x7f, 0x7f] the claim's steps (continuation computed
from I itself) would produce. -/
theorem encode_integer_longform_counterexample :
    (1 ≤ 7 ∧ 7 ≤ 8 ∧ 2 ^ 7 - 1 ≤ 127) ∧
      encode_integer 127 7 ≠ (2 ^ 7 - 1) :: claimContinuation 127 := by
  decide

/-- Any value below 128 gains the 0x80 bit by plain addition of 128. -/
theorem add128_eq_lor : ∀ x, x < 128 → x + 128 = x ||| 128 := by decide

/-- The source's continuation loop computes exactly the claim's loop (the
`+ 128` of the source is the claim's `| 0x80` on a 7-bit remainder). -/
theorem encIntLoopGo_eq_claimContGo :
    ∀ fuel i, i ≤ fuel → encIntLoopGo fuel i = claimContGo fuel i := by
  intro fuel
  induction fuel with
  | zero => intro i _; rfl
  | succ f ih =>
    intro i hi
    simp only [encIntLoopGo, claimContGo]
    by_cases h : 128 ≤ i
    · have hdiv : i / 128 ≤ f := by
        have : i / 128 < i := Nat.div_lt_self (by omega) (by norm_num)
        omega
      rw [if_pos h, if_pos h, ih (i / 128) hdiv,
          add128_eq_lor (i % 128) (Nat.mod_lt i (by norm_num))]
    · rw [if_neg h, if_neg h]

/-- C7 amended: in the long form the first byte is M = 2^N - 1 (its low N
bits all set), and the continuation bytes are the claim's loop — emit
`(I mod 128) | 0x80` while `I ≥ 128`, then `I` — applied to I - M: the
source reduces I by the prefix maximum before the loop. -/
theorem encode_integer_longform (i n : Nat) (h1 : 1 ≤ n) (h2 : n ≤ 8)
    (h3 : 2 ^ n - 1 ≤ i) :
    encode_integer i n = (2 ^ n - 1) :: claimContinuation (i - (2 ^ n - 1)) := by
  have hnot : ¬ i < 2 ^ n - 1 := by omega
  simp only [encode_integer, if_neg hnot]
  exact congrArg _ (encIntLoopGo_eq_claimContGo _ _ (Nat.le_refl _))

/-- C7 amended, witnessed at I = 300, N = 5: the hypotheses hold and the
equation evaluates to [0x1f, 0x8d, 0x02]. -/
theorem encode_integer_longform_witness :
    encode_integer 300 5 = (2 ^ 5 - 1) :: claimContinuation (300 - (2 ^ 5 - 1)) :=
  encode_integer_longform 300 5 (by decide) (by decide) (by decide)

/-- C8 fails for a 0x30 byte that is not at the start of the block: decoding
[0x82, 0x30] reaches the context-update branch, but `Decoder.decode` passes
the whole block to `_update_encoding_context` (line 660), which reads the
block's first byte 0x82, takes the size-update path and resizes the table
to 0x82 & 0x0F = 2 — evicting the dynamic table (and with it the reference
set) and changing the maximum size from 4096 to 2, instead of only
clearing the reference set. -/
theorem context_update_reads_block_start :
    Decoder.decode id freshDecoder [0x82, 0x30] =
      .ok ([(byteStr ":method", byteStr "GET")], ⟨[], [], 2⟩) :=
  rfl

/-- C9: the integer codec round-trips at the boundary values: for every
prefix width N in 1..8 and every I in {0, 2^N-2, 2^N-1, 2^N, 2^16,
2^21-1}, decoding the encoding yields I together with the encoding's byte
length. -/
theorem integer_roundtrip_boundaries :
    ∀ n ∈ [1, 2, 3, 4, 5, 6, 7, 8],
      ∀ i ∈ [0, 2 ^ n - 2, 2 ^ n - 1, 2 ^ n, 2 ^ 16, 2 ^ 21 - 1],
        decode_integer (encode_integer i n) n =
          some (i, (encode_integer i n).length) := by
  decide

/-- C9 witnessed at N = 8, I = 2^21 - 1 (a four-byte encoding). -/
theorem integer_roundtrip_boundaries_witness :
    decode_integer (encode_integer (2 ^ 21 - 1) 8) 8 =
      some (2 ^ 21 - 1, (encode_integer (2 ^ 21 - 1) 8).length) :=
  integer_roundtrip_boundaries 8 (by decide) (2 ^ 21 - 1) (by decide)

/-- C10: `Encoder.encode` normalizes every header name and value with
`_to_bytes` before any table lookup or emission — encoding arbitrary
values equals encoding their coercions to `bytes` — and `_to_bytes` passes
`bytes` through unchanged, UTF-8 encodes `str`, and converts any other
value with `str()` followed by UTF-8 encoding. -/
theorem encode_input_coercion :
    (∀ (hc : Bytes → Bytes) (st : EncState) (headers : List (PyVal × PyVal))
        (huffman : Bool),
      Encoder.encode hc st headers huffman =
        Encoder.encode hc st
          (headers.map fun p => (.bytes (_to_bytes p.1), .bytes (_to_bytes p.2)))
          huffman) ∧
    (∀ b, _to_bytes (.bytes b) = b) ∧
    (∀ s, _to_bytes (.str s) = utf8Bytes s) ∧
    (∀ r, _to_bytes (.other r) = utf8Bytes r) := by
  refine ⟨fun hc st headers huffman => ?_, fun _ => rfl, fun _ => rfl, fun _ => rfl⟩
  show encodeBody hc st _ huffman = encodeBody hc st _ huffman
  rw [List.map_map]
  rfl
